import Mathlib

/-!
Verification of the metric gauges of postgresql_exporter.

A shallow embedding of `gauges/gauge.go`, `gauges/backends.go`,
`gauges/deadtuples.go` and `gauges/tables.go`.

* Go strings are Lean strings; a `float64` sample is an element of an arbitrary
  type `V` (the code only stores and copies samples, it never computes on them).
* A `prometheus.GaugeVec` is its cell mapping: an association list from the
  tuple of label values (in the order of the declared label names) to the sample.
* `g.Errs`, the log and the goroutines started with `go` are an explicit `World`
  that every constructor threads through.
* `g.query`, `g.hasExtension` and `g.version` are not part of the embedded files:
  their results are parameters (`Gauges` fields and query oracles).
* A `for { ... }` loop is a recursion on a number of iterations.
-/

namespace PgExporter

/-! ## gauge.go: version test -/

/-- Go `strings.HasPrefix(s, p)`: `len(s) >= len(p) && s[:len(p)] == p`. Lengths and
slices count characters here and bytes in Go; for an ASCII `p` such as `9.6.` the two
tests agree on every UTF-8 string. -/
def HasPrefix (s p : String) : Bool :=
  decide (p.length ≤ s.length) && (s.toList.take p.length == p.toList)

/-- Source `isPG96` (gauge.go:42-44). -/
def isPG96 (version : String) : Bool :=
  HasPrefix version "9.6."

/-! ## The `Gauges` receiver -/

/-- The fields and capability methods of `*Gauges` that the embedded functions read.
`hasExtension` and `version` are methods defined outside the embedded files; their
answers are taken as given. `Errs` lives in `World`. -/
structure Gauges where
  isSuperuser : Bool
  hasExtension : String → Bool
  version : String
  interval : Nat

/-! ## backends.go: queries -/

/-- The constant `backendsQuery` of `BackendsStatus` (backends.go:60-65). -/
def backendsQuery : String :=
  "\n\t\tSELECT COUNT(*) as count, state, usename\n\t\tFROM pg_stat_activity\n\t\tWHERE datname = current_database()\n\t\tGROUP BY state, usename\n\t"

/-- The literal returned by `waitingBackendsQuery` on a 9.6 server (backends.go:87-93). -/
def waitEventQuery : String :=
  "\n\t\t\tSELECT COUNT(*) as count, 'waiting' as state, usename\n\t\t\tFROM pg_stat_activity\n\t\t\tWHERE datname = current_database()\n\t\t\tAND wait_event is not null\n\t\t\tGROUP BY usename\n\t\t"

/-- The literal returned by `waitingBackendsQuery` otherwise (backends.go:95-101). -/
def waitingBoolQuery : String :=
  "\n\t\tSELECT COUNT(*) as count, 'waiting' as state, usename\n\t\tFROM pg_stat_activity\n\t\tWHERE datname = current_database()\n\t\tAND waiting is true\n\t\tGROUP BY usename\n\t"

/-- Source `Gauges.waitingBackendsQuery` (backends.go:85-102). -/
def waitingBackendsQuery (g : Gauges) : String :=
  if isPG96 g.version then waitEventQuery else waitingBoolQuery

/-- Substring test on strings, used to name a query by the condition it contains. -/
def containsText (s t : String) : Prop :=
  t.toList <:+: s.toList

instance (s t : String) : Decidable (containsText s t) := by
  unfold containsText; infer_instance

/-! ## tables.go: query -/

/-- The constant `tableBloatQuery` (tables.go:9-126). -/
def tableBloatQuery : String :=
  "\n" ++
  "WITH constants AS (\n" ++
  "\tSELECT current_setting('block_size')::numeric AS bs, 23 AS hdr, 8 AS ma\n" ++
  "\t),\n" ++
  "\tno_stats AS (\n" ++
  "\tSELECT table_schema, table_name,\n" ++
  "\t\tn_live_tup::numeric as est_rows,\n" ++
  "\t\tpg_table_size(relid)::numeric as table_size\n" ++
  "\tFROM information_schema.columns\n" ++
  "\t\tJOIN pg_stat_user_tables as psut\n" ++
  "\t\tON table_schema = psut.schemaname\n" ++
  "\t\tAND table_name = psut.relname\n" ++
  "\t\tLEFT OUTER JOIN pg_stats\n" ++
  "\t\tON table_schema = pg_stats.schemaname\n" ++
  "\t\tAND table_name = pg_stats.tablename\n" ++
  "\t\tAND column_name = attname\n" ++
  "\tWHERE attname IS NULL\n" ++
  "\tAND table_schema NOT IN ('pg_catalog', 'information_schema')\n" ++
  "\tGROUP BY table_schema, table_name, relid, n_live_tup\n" ++
  "\t),\n" ++
  "\tnull_headers AS (\n" ++
  "\t-- calculate null header sizes\n" ++
  "\t-- omitting tables which dont have complete stats\n" ++
  "\t-- and attributes which arent visible\n" ++
  "\tSELECT\n" ++
  "\t\thdr+1+(sum(case when null_frac <> 0 THEN 1 else 0 END)/8) as nullhdr,\n" ++
  "\t\tSUM((1-null_frac)*avg_width) as datawidth,\n" ++
  "\t\tMAX(null_frac) as maxfracsum,\n" ++
  "\t\tschemaname,\n" ++
  "\t\ttablename,\n" ++
  "\t\thdr, ma, bs\n" ++
  "\tFROM pg_stats CROSS JOIN constants\n" ++
  "\tLEFT OUTER JOIN no_stats\n" ++
  "\tON schemaname = no_stats.table_schema\n" ++
  "\tAND tablename = no_stats.table_name\n" ++
  "\tWHERE schemaname NOT IN ('pg_catalog', 'information_schema')\n" ++
  "\tAND no_stats.table_name IS NULL\n" ++
  "\tAND EXISTS ( SELECT 1\n" ++
  "\t\tFROM information_schema.columns\n" ++
  "\t\tWHERE schemaname = columns.table_schema\n" ++
  "\t\tAND tablename = columns.table_name )\n" ++
  "\t   GROUP BY schemaname, tablename, hdr, ma, bs\n" ++
  "\t),\n" ++
  "\tdata_headers AS (\n" ++
  "\t-- estimate header and row size\n" ++
  "\t\tSELECT\n" ++
  "\t\tma, bs, hdr, schemaname, tablename,\n" ++
  "\t\t(datawidth+(hdr+ma-(case when hdr%ma=0 THEN ma ELSE hdr%ma END)))::numeric AS datahdr,\n" ++
  "\t\t(maxfracsum*(nullhdr+ma-(case when nullhdr%ma=0 THEN ma ELSE nullhdr%ma END))) AS nullhdr2\n" ++
  "\t\tFROM null_headers\n" ++
  "\t),\n" ++
  "\ttable_estimates AS (\n" ++
  "\t-- make estimates of how large the table should be\n" ++
  "\t-- based on row and page size\n" ++
  "\tSELECT schemaname, tablename, bs,\n" ++
  "\t\treltuples::numeric as est_rows, relpages * bs as table_bytes,\n" ++
  "\tCEIL((reltuples*\n" ++
  "\t\t(datahdr + nullhdr2 + 4 + ma -\n" ++
  "\t\t(CASE WHEN datahdr%ma=0 THEN ma ELSE datahdr%ma END)\n" ++
  "\t\t)/(bs-20))) * bs AS expected_bytes,\n" ++
  "\treltoastrelid\n" ++
  "\tFROM data_headers\n" ++
  "\tJOIN pg_class ON tablename = relname\n" ++
  "\tJOIN pg_namespace ON relnamespace = pg_namespace.oid\n" ++
  "\tAND schemaname = nspname\n" ++
  "\tWHERE pg_class.relkind = 'r'\n" ++
  "\t),\n" ++
  "\testimates_with_toast AS (\n" ++
  "\tSELECT schemaname, tablename,\n" ++
  "\t\tTRUE as can_estimate,\n" ++
  "\t\test_rows,\n" ++
  "\t\ttable_bytes + ( coalesce(toast.relpages, 0) * bs ) as table_bytes,\n" ++
  "\t\texpected_bytes + ( ceil( coalesce(toast.reltuples, 0) / 4 ) * bs ) as expected_bytes\n" ++
  "\tFROM table_estimates LEFT OUTER JOIN pg_class as toast\n" ++
  "\tON table_estimates.reltoastrelid = toast.oid\n" ++
  "\tAND toast.relkind = 't'\n" ++
  "\t),\n" ++
  "\ttable_estimates_plus AS (\n" ++
  "\tSELECT current_database() as databasename,\n" ++
  "\t\tschemaname, tablename, can_estimate,\n" ++
  "\t\test_rows,\n" ++
  "\tCASE WHEN table_bytes > 0\n" ++
  "\t\tTHEN table_bytes::NUMERIC\n" ++
  "\t\tELSE NULL::NUMERIC END\n" ++
  "\t\tAS table_bytes,\n" ++
  "\tCASE WHEN expected_bytes > 0\n" ++
  "\t\tTHEN expected_bytes::NUMERIC\n" ++
  "\t\tELSE NULL::NUMERIC END\n" ++
  "\t\tAS expected_bytes,\n" ++
  "\t  CASE WHEN expected_bytes > 0 AND table_bytes > 0\n" ++
  "\t\tAND expected_bytes <= table_bytes\n" ++
  "\t\tTHEN (table_bytes - expected_bytes)::NUMERIC\n" ++
  "\t\tELSE 0::NUMERIC END AS bloat_bytes\n" ++
  "\t\tFROM estimates_with_toast\n" ++
  "\t\tUNION ALL\n" ++
  "\t\tSELECT current_database() as databasename,\n" ++
  "\t\t\ttable_schema, table_name, FALSE,\n" ++
  "\t\t\test_rows, table_size,\n" ++
  "\t\t\tNULL::NUMERIC, NULL::NUMERIC\n" ++
  "\t\tFROM no_stats\n" ++
  "\t),\n" ++
  "\tbloat_data AS (\n" ++
  "\t\tselect current_database() as databasename,\n" ++
  "\t\tschemaname, tablename, can_estimate,\n" ++
  "\t\ttable_bytes, round(table_bytes/(1024^2)::NUMERIC,3) as table_mb,\n" ++
  "\t\texpected_bytes, round(expected_bytes/(1024^2)::NUMERIC,3) as expected_mb,\n" ++
  "\t\tround(bloat_bytes*100/table_bytes) as pct_bloat,\n" ++
  "\t\tround(bloat_bytes/(1024::NUMERIC^2),2) as mb_bloat,\n" ++
  "\t\ttable_bytes, expected_bytes, est_rows\n" ++
  "\tFROM table_estimates_plus\n" ++
  "\t)\n" ++
  "\tSELECT tablename,\n" ++
  "\t\tpct_bloat\n" ++
  "\tFROM bloat_data\n" ++
  "\tWHERE ( pct_bloat >= 30 AND mb_bloat >= 10 )\n" ++
  "\tOR ( pct_bloat >= 20 AND mb_bloat >= 1000 )\n" ++
  "\tORDER BY pct_bloat DESC\n" ++
  ""

/-! ## Vector metrics -/

/-- The cell mapping of a `prometheus.GaugeVec`: one entry per tuple of label values,
in order of first use. -/
structure GaugeVec (V : Type) where
  cells : List (List String × V)
deriving DecidableEq, Repr

namespace GaugeVec

variable {V : Type}

/-- Result of `prometheus.NewGaugeVec`: no cells. -/
def new : GaugeVec V := ⟨[]⟩

/-- Value lookup in a list of cells. -/
def lookup (k : List String) : List (List String × V) → Option V
  | [] => none
  | (k', v) :: rest => if k' = k then some v else lookup k rest

/-- Upsert in a list of cells: overwrite the cell of `k`, or create it at the end. -/
def upsert (k : List String) (v : V) : List (List String × V) → List (List String × V)
  | [] => [(k, v)]
  | (k', v') :: rest => if k' = k then (k', v) :: rest else (k', v') :: upsert k v rest

/-- The sample of the cell with label values `k`, if there is such a cell. -/
def get (gv : GaugeVec V) (k : List String) : Option V :=
  lookup k gv.cells

/-- The call `gauge.With(labels).Set(v)`, `k` being the label values. -/
def set (gv : GaugeVec V) (k : List String) (v : V) : GaugeVec V :=
  ⟨upsert k v gv.cells⟩

/-- Upsert of a list of (label values, sample) pairs, first to last. -/
def upsertAll (ps : List (List String × V)) (c : List (List String × V)) :
    List (List String × V) :=
  ps.foldl (fun acc p => upsert p.1 p.2 acc) c

/-- The label-value tuples that have a cell. -/
def keys (gv : GaugeVec V) : List (List String) :=
  gv.cells.map Prod.fst

end GaugeVec

/-- Source `backendStatus` (backends.go:40-44). -/
structure backendStatus (V : Type) where
  Count : V
  User : String
  State : String
deriving DecidableEq, Repr

/-- Source `tableBloat` (tables.go:128-131). -/
structure tableBloat (V : Type) where
  Name : String
  Pct : V
deriving DecidableEq, Repr

/-- What a call `g.query(q, &dest, params)` leaves behind: the records now in `dest`
and whether the returned error is non-nil. -/
structure QueryResult (R : Type) where
  records : List R
  err : Bool
deriving DecidableEq, Repr

/-- The goroutines the constructors start with `go func() ...`. The bodies of the
first and the last are `backendsStatusTask` and `tableBloatLoop` below; the body of the
`DeadTuples` goroutine (deadtuples.go:33-54) goes through `g.fromOnce`, which is outside
the embedded files, and is only named here. -/
inductive Task where
  | backendsStatus
  | deadTuples
  | tableBloat
deriving DecidableEq, Repr

/-- State shared by the constructors: the counter `g.Errs`, the error log and the
goroutines started so far. -/
structure World where
  errs : Nat
  logs : List String
  tasks : List Task
deriving DecidableEq, Repr

/-- Observable steps of a refresh goroutine. -/
inductive Event where
  | query (q : String)
  | sleep (d : Nat)
deriving DecidableEq, Repr

/-- State of a running refresh goroutine: the vector it feeds, what it did so far and
how many times it called `g.query`. -/
structure TaskState (V : Type) where
  gauge : GaugeVec V
  trace : List Event
  calls : Nat
deriving DecidableEq, Repr

variable {V : Type}

/-- A call of `g.query`: the database answers the `n`-th call of the goroutine with
`db n q`. -/
def query {R : Type} (db : Nat → String → QueryResult R) (q : String) (s : TaskState V) :
    QueryResult R × TaskState V :=
  (db s.calls q, { s with trace := s.trace ++ [Event.query q], calls := s.calls + 1 })

/-- A call of `time.Sleep(d)`. -/
def sleep (d : Nat) (s : TaskState V) : TaskState V :=
  { s with trace := s.trace ++ [Event.sleep d] }

/-! ## backends.go: BackendsStatus -/

/-- Source `Gauges.BackendsStatus` (backends.go:46-83), up to the start of the goroutine. -/
def BackendsStatus (g : Gauges) (w : World) : GaugeVec V × World :=
  let gauge : GaugeVec V := GaugeVec.new
  if !g.isSuperuser then
    (gauge, { w with
      errs := w.errs + 1
      logs := w.logs ++ ["postgresql_backends_count disabled because it requires a superuser to see queries from other users"] })
  else
    (gauge, { w with tasks := w.tasks ++ [Task.backendsStatus] })

/-- Inner loop of the goroutine (backends.go:73-78): one upsert per record. -/
def setStatuses (statuteses : List (backendStatus V)) (gauge : GaugeVec V) : GaugeVec V :=
  statuteses.foldl (fun gv status => gv.set [status.State, status.User] status.Count) gauge

/-- Body of the `range` loop over the two queries (backends.go:71-78): the error of
`g.query` is dropped and the destination slice is walked whatever it holds. -/
def backendsStatusQuery (db : Nat → String → QueryResult (backendStatus V))
    (s : TaskState V) (q : String) : TaskState V :=
  let (r, s1) := query db q s
  { s1 with gauge := setStatuses r.records s1.gauge }

/-- The goroutine of `BackendsStatus` (backends.go:66-81): both queries, one sleep,
then the function ends. -/
def backendsStatusTask (g : Gauges) (db : Nat → String → QueryResult (backendStatus V))
    (s : TaskState V) : TaskState V :=
  let s1 := [backendsQuery, waitingBackendsQuery g].foldl (backendsStatusQuery db) s
  sleep g.interval s1

/-! ## deadtuples.go: DeadTuples -/

/-- Source `Gauges.DeadTuples` (deadtuples.go:14-57), up to the start of the goroutine. -/
def DeadTuples (g : Gauges) (w : World) : GaugeVec V × World :=
  let gauge : GaugeVec V := GaugeVec.new
  if !g.isSuperuser then
    (gauge, { w with
      errs := w.errs + 1
      logs := w.logs ++ ["postgresql_dead_tuples_pct disabled because pgstattuple requires a superuser"] })
  else if !g.hasExtension "pgstattuple" then
    (gauge, { w with
      errs := w.errs + 1
      logs := w.logs ++ ["postgresql_dead_tuples_pct disabled because pgstattuple extension is not installed"] })
  else
    (gauge, { w with tasks := w.tasks ++ [Task.deadTuples] })

/-! ## tables.go: TableBloat -/

/-- Source `Gauges.TableBloat` (tables.go:133-155), up to the start of the goroutine. -/
def TableBloat (w : World) : GaugeVec V × World :=
  let gauge : GaugeVec V := GaugeVec.new
  (gauge, { w with tasks := w.tasks ++ [Task.tableBloat] })

/-- Inner loop of the goroutine (tables.go:146-150). -/
def setBloats (tables : List (tableBloat V)) (gauge : GaugeVec V) : GaugeVec V :=
  tables.foldl (fun gv table => gv.set [table.Name] table.Pct) gauge

/-- One iteration of the `for` loop of the goroutine (tables.go:144-152): the cells are
written and the sleep is taken only inside `if err == nil`. -/
def tableBloatIter (g : Gauges) (db : Nat → String → QueryResult (tableBloat V))
    (s : TaskState V) : TaskState V :=
  let (r, s1) := query db tableBloatQuery s
  if r.err = false then
    sleep g.interval { s1 with gauge := setBloats r.records s1.gauge }
  else
    s1

/-- The goroutine of `TableBloat` (tables.go:142-154) after `n` iterations of its
endless `for` loop. -/
def tableBloatLoop (g : Gauges) (db : Nat → String → QueryResult (tableBloat V)) :
    Nat → TaskState V → TaskState V
  | 0, s => s
  | n + 1, s => tableBloatLoop g db n (tableBloatIter g db s)

/-- Reading a vector metric from the exposition layer: the cells are reported as they
are; no code of the collector runs. -/
def readVec (p : GaugeVec V × World) : List (List String × V) × (GaugeVec V × World) :=
  (p.1.cells, p)

/-- The vector and the world after `n` reads. -/
def readTimes : Nat → GaugeVec V × World → GaugeVec V × World
  | 0, p => p
  | n + 1, p => readTimes n (readVec p).2

/-! ## gauge.go: newGauge -/

/-- What `db.QueryRowContext(ctx, query, iparams...).Scan(&result)` did: it returned
nil after storing `v`, or it returned an error having stored nothing (`none`) or a
value (`some x`) in `result`. -/
inductive ScanResult (V : Type) where
  | ok (v : V)
  | failed (stored : Option V)
deriving DecidableEq, Repr

/-- Whether the error returned by `Scan` is non-nil. -/
def ScanResult.isErr : ScanResult V → Bool
  | .ok _ => false
  | .failed _ => true

/-- What `Scan` wrote through `&result`, if anything. -/
def ScanResult.stored : ScanResult V → Option V
  | .ok v => some v
  | .failed x => x

/-- The calls made by the function literal that `newGauge` hands to
`prometheus.NewGaugeFunc` (gauge.go:25-38). -/
inductive Act where
  | withDeadline
  | queryRowScan
  | warnf
  | cancel
  | recvDone
deriving DecidableEq, Repr

/-- Statements of a function body: a call, a deferred call, `return`. -/
inductive Stmt where
  | act (a : Act)
  | defer (a : Act)
  | ret
deriving DecidableEq, Repr

/-- One activation of the function literal: the named result, whether `ctx.Done()` is
closed, whether a receive on `ctx.Done()` found it open and had to wait for the
deadline to close it, and the calls made so far. -/
structure Frame (V : Type) where
  result : V
  done : Bool
  blocked : Bool
  trace : List Act
deriving DecidableEq, Repr

/-- Effect of one call. `expired` says whether the one second deadline passed while
the query was running. -/
def exec (o : ScanResult V) (expired : Bool) (a : Act) (f : Frame V) : Frame V :=
  let f1 := { f with trace := f.trace ++ [a] }
  match a with
  | .withDeadline => { f1 with done := false }
  | .queryRowScan => { f1 with result := o.stored.getD f.result, done := f.done || expired }
  | .warnf => f1
  | .cancel => { f1 with done := true }
  | .recvDone => { f1 with blocked := f.blocked || !f.done, done := true }

/-- Run the pending deferred calls, last deferred first. -/
def runDeferred (o : ScanResult V) (expired : Bool) (deferred : List Act) (f : Frame V) :
    Frame V :=
  deferred.foldl (fun f1 a => exec o expired a f1) f

/-- Run a function body: calls run in order, `defer` pushes on the deferred stack,
`return` (or the end of the body) runs the deferred calls. -/
def run (o : ScanResult V) (expired : Bool) : List Stmt → List Act → Frame V → Frame V
  | [], deferred, f => runDeferred o expired deferred f
  | .ret :: _, deferred, f => runDeferred o expired deferred f
  | .act a :: rest, deferred, f => run o expired rest deferred (exec o expired a f)
  | .defer a :: rest, deferred, f => run o expired rest (a :: deferred) f

/-- Body of the function literal of `newGauge` (gauge.go:26-37). -/
def pullBody (o : ScanResult V) : List Stmt :=
  [.act .withDeadline, .defer .recvDone, .act .queryRowScan]
    ++ (if o.isErr then [.act .warnf] else [])
    ++ [.act .cancel, .ret]

/-- One read of a metric built by `newGauge`: the named result starts at zero. -/
def pull [Zero V] (o : ScanResult V) (expired : Bool) : Frame V :=
  run o expired (pullBody o) [] { result := 0, done := false, blocked := false, trace := [] }

/-- The values returned by successive reads of one metric built by `newGauge`. -/
def reads [Zero V] (os : List (ScanResult V × Bool)) : List V :=
  os.map (fun p => (pull p.1 p.2).result)

/-- Values of successive reads as section 4.3 of the specification words them: the
fresh value on success; on failure the value of the last successful read, `last`,
which is zero while there has been none. -/
def specReads : V → List (ScanResult V × Bool) → List V
  | _, [] => []
  | _, (.ok v, _) :: rest => v :: specReads v rest
  | last, (.failed _, _) :: rest => last :: specReads last rest

/-! ## Sample inputs -/

/-- A connection whose role is not superuser, on a server without `pgstattuple`. -/
def plainRole : Gauges :=
  { isSuperuser := false, hasExtension := fun _ => false, version := "10.4", interval := 15 }

/-- A superuser connection to a server without `pgstattuple`. -/
def superNoExt : Gauges :=
  { isSuperuser := true, hasExtension := fun _ => false, version := "9.6.11", interval := 15 }

/-- The world before any constructor ran. -/
def freshWorld : World :=
  { errs := 0, logs := [], tasks := [] }

/-- A superuser connection to a server that has `pgstattuple`. -/
def superuser : Gauges :=
  { isSuperuser := true, hasExtension := fun _ => true, version := "10.4", interval := 15 }

/-- A goroutine that has just been started on the vector `gv`. -/
def started {V : Type} (gv : GaugeVec V) : TaskState V :=
  { gauge := gv, trace := [], calls := 0 }

/-- A database where alice has one active backend while the first two queries run and
two from then on; nobody waits. -/
def changingDb : Nat → String → QueryResult (backendStatus Int) :=
  fun n q =>
    if q = backendsQuery then
      { records := [{ Count := if n < 2 then 1 else 2, User := "alice", State := "active" }],
        err := false }
    else { records := [], err := false }

/-- A database with three (state, user) combinations. -/
def threeStates : Nat → String → QueryResult (backendStatus Int) :=
  fun _ q =>
    if q = backendsQuery then
      { records := [{ Count := 2, User := "alice", State := "active" },
                    { Count := 1, User := "bob", State := "idle" }],
        err := false }
    else { records := [{ Count := 1, User := "bob", State := "waiting" }], err := false }

/-- A database whose first answer fails after one row was decoded (the next row cannot
be decoded); later answers are empty. -/
def partialDb : Nat → String → QueryResult (backendStatus Int) :=
  fun n _ =>
    if n = 0 then
      { records := [{ Count := 3, User := "alice", State := "active" }], err := true }
    else { records := [], err := false }

/-- A database on which the bloat query fails twice and then succeeds. -/
def failingTwice : Nat → String → QueryResult (tableBloat Int) :=
  fun n _ =>
    if n < 2 then { records := [], err := true }
    else { records := [{ Name := "orders", Pct := 40 }], err := false }

end PgExporter

namespace PgExporter

/-! ## Version-dependent query selection -/

theorem isPG96_iff (v : String) :
    isPG96 v = true ↔ ∃ rest : String, v = "9.6." ++ rest := by
  constructor
  · intro h
    simp only [isPG96, HasPrefix, Bool.and_eq_true, decide_eq_true_eq, beq_iff_eq] at h
    refine ⟨⟨v.toList.drop 4⟩, ?_⟩
    apply String.ext
    have h2 : v.toList.take 4 = "9.6.".toList := h.2
    have h3 : v.toList = v.toList.take 4 ++ v.toList.drop 4 := (List.take_append_drop 4 _).symm
    rw [h2] at h3
    simpa using h3
  · rintro ⟨rest, rfl⟩
    simp only [isPG96, HasPrefix, Bool.and_eq_true, decide_eq_true_eq, beq_iff_eq]
    constructor
    · simp [String.length_append]
    · have : ("9.6." ++ rest).toList = "9.6.".toList ++ rest.toList := by simp
      rw [this]
      have hl : "9.6.".length = "9.6.".toList.length := rfl
      rw [hl, List.take_left]

theorem waitEventQuery_ne : waitEventQuery ≠ waitingBoolQuery := by decide

set_option maxRecDepth 100000 in
/-- C3: the query returned by `waitingBackendsQuery` is the `wait_event is not null`
one exactly when the server version begins with `9.6.`, and the `waiting is true` one
for every other version; `9.6.11` selects the former, `10.4`, `9.6`, `9.5.3` and the
empty string the latter. -/
theorem waitingBackendsQuery_selects (g : Gauges) :
    (isPG96 g.version = true ↔ ∃ rest : String, g.version = "9.6." ++ rest) ∧
    (waitingBackendsQuery g = waitEventQuery ↔ isPG96 g.version = true) ∧
    (waitingBackendsQuery g = waitingBoolQuery ↔ isPG96 g.version = false) ∧
    (containsText waitEventQuery "wait_event is not null" ∧
      ¬ containsText waitEventQuery "waiting is true") ∧
    (containsText waitingBoolQuery "waiting is true" ∧
      ¬ containsText waitingBoolQuery "wait_event is not null") ∧
    waitingBackendsQuery { g with version := "9.6.11" } = waitEventQuery ∧
    waitingBackendsQuery { g with version := "10.4" } = waitingBoolQuery ∧
    waitingBackendsQuery { g with version := "9.6" } = waitingBoolQuery ∧
    waitingBackendsQuery { g with version := "9.5.3" } = waitingBoolQuery ∧
    waitingBackendsQuery { g with version := "" } = waitingBoolQuery := by
  refine ⟨isPG96_iff _, ?_, ?_, ⟨by decide, by decide⟩, ⟨by decide, by decide⟩,
    rfl, rfl, rfl, rfl, rfl⟩
  · unfold waitingBackendsQuery
    cases h : isPG96 g.version
    · simpa using waitEventQuery_ne.symm
    · simp
  · unfold waitingBackendsQuery
    cases h : isPG96 g.version
    · simp
    · simpa using waitEventQuery_ne

/-! ## Capability gates -/

variable {V : Type}

theorem readTimes_id (n : Nat) (p : GaugeVec V × World) : readTimes n p = p := by
  induction n with
  | zero => rfl
  | succ n ih => simpa [readTimes, readVec] using ih

/-- C1: without superuser, `BackendsStatus` and `DeadTuples` (whatever `hasExtension`
answers) return a vector with zero cells, start no goroutine and add exactly one to
`Errs`; any number of reads reports zero cells and leaves cells and counter as they
are. -/
theorem not_superuser_disables (g : Gauges) (w : World) (n : Nat)
    (h : g.isSuperuser = false) :
    ((BackendsStatus g w : GaugeVec V × World).1.cells = [] ∧
      (BackendsStatus g w : GaugeVec V × World).2.tasks = w.tasks ∧
      (BackendsStatus g w : GaugeVec V × World).2.errs = w.errs + 1 ∧
      readTimes n (BackendsStatus g w : GaugeVec V × World) = BackendsStatus g w ∧
      (readVec (readTimes n (BackendsStatus g w : GaugeVec V × World))).1 = []) ∧
    ((DeadTuples g w : GaugeVec V × World).1.cells = [] ∧
      (DeadTuples g w : GaugeVec V × World).2.tasks = w.tasks ∧
      (DeadTuples g w : GaugeVec V × World).2.errs = w.errs + 1 ∧
      readTimes n (DeadTuples g w : GaugeVec V × World) = DeadTuples g w ∧
      (readVec (readTimes n (DeadTuples g w : GaugeVec V × World))).1 = []) := by
  simp only [readTimes_id]
  simp [BackendsStatus, DeadTuples, h, GaugeVec.new, readVec]

theorem not_superuser_disables_witness :
    plainRole.isSuperuser = false ∧
    ((BackendsStatus plainRole freshWorld : GaugeVec Int × World).2.errs = 1 ∧
      (DeadTuples plainRole freshWorld : GaugeVec Int × World).2.errs = 1 ∧
      readTimes 5 (DeadTuples plainRole freshWorld : GaugeVec Int × World)
        = (GaugeVec.new, { errs := 1, logs := ["postgresql_dead_tuples_pct disabled because pgstattuple requires a superuser"], tasks := [] })) :=
  ⟨rfl, by
    have key := @not_superuser_disables Int plainRole freshWorld 5 rfl
    refine ⟨key.1.2.2.1, key.2.2.2.1, ?_⟩
    rw [key.2.2.2.2.1]
    rfl⟩

/-- C2: with superuser but without the `pgstattuple` extension, `DeadTuples` returns a
vector with zero cells, starts no goroutine and adds exactly one to `Errs`. -/
theorem deadTuples_without_extension (g : Gauges) (w : World)
    (hs : g.isSuperuser = true) (he : g.hasExtension "pgstattuple" = false) :
    (DeadTuples g w : GaugeVec V × World).1.cells = [] ∧
    (DeadTuples g w : GaugeVec V × World).2.tasks = w.tasks ∧
    (DeadTuples g w : GaugeVec V × World).2.errs = w.errs + 1 := by
  simp [DeadTuples, hs, he, GaugeVec.new]

theorem deadTuples_without_extension_witness :
    superNoExt.isSuperuser = true ∧ superNoExt.hasExtension "pgstattuple" = false ∧
    (DeadTuples superNoExt freshWorld : GaugeVec Int × World).1.cells = [] ∧
    (DeadTuples superNoExt freshWorld : GaugeVec Int × World).2.tasks = [] ∧
    (DeadTuples superNoExt freshWorld : GaugeVec Int × World).2.errs = 0 + 1 :=
  ⟨rfl, rfl, @deadTuples_without_extension Int superNoExt freshWorld rfl rfl⟩

/-! ## Scalar metrics -/

/-- C4, as stated, fails: after a successful read of 5, a failed read returns 0 where
the specification's wording asks for 5. -/
theorem reads_not_stale_on_failure :
    reads [(ScanResult.ok (5 : Int), false), (ScanResult.failed none, true)] = [5, 0] ∧
    specReads 0 [(ScanResult.ok (5 : Int), false), (ScanResult.failed none, true)] = [5, 5] ∧
    reads [(ScanResult.ok (5 : Int), false), (ScanResult.failed none, true)]
      ≠ specReads 0 [(ScanResult.ok (5 : Int), false), (ScanResult.failed none, true)] := by
  decide

/-- C4, amended: a read whose query succeeds returns the freshly scanned value; a read
whose query fails returns what `Scan` left in the zero-initialised result, which is
zero when it stored nothing; every read depends on its own query alone, never on an
earlier read. -/
theorem pull_result [Zero V] (v x : V) (expired : Bool) (os : List (ScanResult V × Bool)) :
    (pull (ScanResult.ok v) expired).result = v ∧
    (pull (ScanResult.failed none : ScanResult V) expired).result = 0 ∧
    (pull (ScanResult.failed (some x)) expired).result = x ∧
    reads os = os.map (fun p => p.1.stored.getD 0) := by
  refine ⟨rfl, rfl, rfl, ?_⟩
  unfold reads
  apply List.map_congr_left
  rintro ⟨o, e⟩ _
  cases o <;> rfl

/-- C7: on the success path and on the failure path alike, the last two calls of a
read are `cancel()` and then the deferred receive on `ctx.Done()`, each made once;
the context is done when the read returns, and the receive never has to wait for the
deadline, whereas the same body without `cancel()` waits whenever the deadline has
not passed during the query. -/
theorem pull_cancels_then_drains [Zero V] (o : ScanResult V) (expired : Bool) :
    (∃ before : List Act, (pull o expired).trace = before ++ [Act.cancel, Act.recvDone] ∧
      Act.cancel ∉ before ∧ Act.recvDone ∉ before) ∧
    (pull o expired).done = true ∧
    (pull o expired).blocked = false ∧
    (run o expired [.act .withDeadline, .defer .recvDone, .act .queryRowScan, .ret] []
      { result := (0 : V), done := false, blocked := false, trace := [] }).blocked
        = !expired := by
  cases o with
  | ok v =>
    cases expired <;>
      exact ⟨⟨[.withDeadline, .queryRowScan], rfl, by decide, by decide⟩, rfl, rfl, rfl⟩
  | failed stored =>
    cases expired <;>
      exact ⟨⟨[.withDeadline, .queryRowScan, .warnf], rfl, by decide, by decide⟩, rfl, rfl, rfl⟩

/-! ## Cells under upsert -/

namespace GaugeVec

theorem lookup_upsert_self (k : List String) (v : V) (c : List (List String × V)) :
    lookup k (upsert k v c) = some v := by
  induction c with
  | nil => simp [upsert, lookup]
  | cons p rest ih =>
    obtain ⟨k1, v1⟩ := p
    by_cases hk : k1 = k
    · simp [upsert, lookup, hk]
    · simp [upsert, lookup, hk, ih]

theorem lookup_upsert_ne {k k1 : List String} (hne : k1 ≠ k) (v : V)
    (c : List (List String × V)) :
    lookup k (upsert k1 v c) = lookup k c := by
  induction c with
  | nil => simp [upsert, lookup, hne]
  | cons p rest ih =>
    obtain ⟨k2, v2⟩ := p
    by_cases h2 : k2 = k1
    · subst h2
      simp [upsert, lookup, hne]
    · by_cases h3 : k2 = k
      · subst h3
        simp [upsert, lookup, h2]
      · simp [upsert, lookup, h2, h3, ih]

theorem lookup_upsert_isSome (k k1 : List String) (v : V) (c : List (List String × V))
    (h : (lookup k c).isSome = true) : (lookup k (upsert k1 v c)).isSome = true := by
  by_cases hk : k1 = k
  · subst hk
    simp [lookup_upsert_self]
  · rw [lookup_upsert_ne hk]
    exact h

theorem upsert_fresh (k : List String) (v : V) (c : List (List String × V))
    (h : k ∉ c.map Prod.fst) : upsert k v c = c ++ [(k, v)] := by
  induction c with
  | nil => rfl
  | cons p rest ih =>
    obtain ⟨k1, v1⟩ := p
    simp only [List.map_cons, List.mem_cons, not_or] at h
    have hne : ¬ k1 = k := fun e => h.1 e.symm
    simp [upsert, hne, ih h.2]

theorem upsertAll_append (ps qs : List (List String × V)) (c : List (List String × V)) :
    upsertAll (ps ++ qs) c = upsertAll qs (upsertAll ps c) := by
  simp [upsertAll, List.foldl_append]

theorem lookup_upsertAll_absent (k : List String) (ps c : List (List String × V))
    (h : k ∉ ps.map Prod.fst) : lookup k (upsertAll ps c) = lookup k c := by
  induction ps generalizing c with
  | nil => rfl
  | cons p rest ih =>
    simp only [List.map_cons, List.mem_cons, not_or] at h
    have hne : p.1 ≠ k := fun e => h.1 e.symm
    have step : upsertAll (p :: rest) c = upsertAll rest (upsert p.1 p.2 c) := rfl
    rw [step, ih _ h.2, lookup_upsert_ne hne]

theorem lookup_upsertAll_isSome (k : List String) (ps c : List (List String × V))
    (h : (lookup k c).isSome = true) : (lookup k (upsertAll ps c)).isSome = true := by
  induction ps generalizing c with
  | nil => exact h
  | cons p rest ih =>
    have step : upsertAll (p :: rest) c = upsertAll rest (upsert p.1 p.2 c) := rfl
    rw [step]
    exact ih _ (lookup_upsert_isSome k p.1 p.2 c h)

theorem upsertAll_fresh (ps c : List (List String × V))
    (h : (c.map Prod.fst ++ ps.map Prod.fst).Nodup) : upsertAll ps c = c ++ ps := by
  induction ps generalizing c with
  | nil => simp [upsertAll]
  | cons p rest ih =>
    have step : upsertAll (p :: rest) c = upsertAll rest (upsert p.1 p.2 c) := rfl
    have hp : p.1 ∉ c.map Prod.fst := by
      intro hmem
      have hd : List.Disjoint (c.map Prod.fst) ((p :: rest).map Prod.fst) :=
        (List.nodup_append.1 h).2.2
      exact hd hmem (List.mem_cons_self _ _)
    rw [step, upsert_fresh _ _ _ hp, ih]
    · simp
    · have e : (c ++ [(p.1, p.2)]).map Prod.fst ++ rest.map Prod.fst
          = c.map Prod.fst ++ (p :: rest).map Prod.fst := by simp
      rw [e]
      exact h

theorem lookup_of_mem_nodup (ps : List (List String × V)) (h : (ps.map Prod.fst).Nodup)
    (p : List String × V) (hp : p ∈ ps) : lookup p.1 ps = some p.2 := by
  induction ps with
  | nil => cases hp
  | cons q rest ih =>
    obtain ⟨k1, v1⟩ := q
    simp only [List.map_cons, List.nodup_cons] at h
    rcases List.mem_cons.1 hp with e | hmem
    · subst e
      simp [lookup]
    · have hne : ¬ k1 = p.1 := by
        intro e
        apply h.1
        rw [e]
        exact List.mem_map_of_mem Prod.fst hmem
      simp [lookup, hne, ih h.2 hmem]

end GaugeVec

theorem setStatuses_eq (rs : List (backendStatus V)) (gv : GaugeVec V) :
    (setStatuses rs gv).cells
      = GaugeVec.upsertAll (rs.map (fun r => ([r.State, r.User], r.Count))) gv.cells := by
  induction rs generalizing gv with
  | nil => rfl
  | cons r rest ih =>
    have step : setStatuses (r :: rest) gv
        = setStatuses rest (gv.set [r.State, r.User] r.Count) := rfl
    rw [step, ih]
    rfl

theorem setBloats_eq (ts : List (tableBloat V)) (gv : GaugeVec V) :
    (setBloats ts gv).cells
      = GaugeVec.upsertAll (ts.map (fun t => ([t.Name], t.Pct))) gv.cells := by
  induction ts generalizing gv with
  | nil => rfl
  | cons t rest ih =>
    have step : setBloats (t :: rest) gv = setBloats rest (gv.set [t.Name] t.Pct) := rfl
    rw [step, ih]
    rfl

/-- The cells after the goroutine of `BackendsStatus`: the records of the two queries,
upserted in order. -/
theorem backendsStatusTask_cells (g : Gauges)
    (db : Nat → String → QueryResult (backendStatus V)) (s : TaskState V) :
    (backendsStatusTask g db s).gauge.cells
      = GaugeVec.upsertAll
          (((db s.calls backendsQuery).records
              ++ (db (s.calls + 1) (waitingBackendsQuery g)).records).map
            (fun r => ([r.State, r.User], r.Count)))
          s.gauge.cells := by
  simp [backendsStatusTask, backendsStatusQuery, query, sleep, setStatuses_eq,
    GaugeVec.upsertAll_append]

/-- What the goroutine of `BackendsStatus` does, whatever the database answers: two
queries, one sleep, and nothing more. -/
theorem backendsStatusTask_trace (g : Gauges)
    (db : Nat → String → QueryResult (backendStatus V)) (s : TaskState V) :
    (backendsStatusTask g db s).trace
      = s.trace ++ [Event.query backendsQuery, Event.query (waitingBackendsQuery g),
          Event.sleep g.interval] ∧
    (backendsStatusTask g db s).calls = s.calls + 2 := by
  simp [backendsStatusTask, backendsStatusQuery, query, sleep]

/-- The cells after one iteration of the loop of `TableBloat`. -/
theorem tableBloatIter_cells (g : Gauges)
    (db : Nat → String → QueryResult (tableBloat V)) (s : TaskState V) :
    (tableBloatIter g db s).gauge.cells
      = if (db s.calls tableBloatQuery).err = false then
          GaugeVec.upsertAll
            ((db s.calls tableBloatQuery).records.map (fun t => ([t.Name], t.Pct)))
            s.gauge.cells
        else s.gauge.cells := by
  unfold tableBloatIter
  by_cases h : (db s.calls tableBloatQuery).err = false
  · simp [query, sleep, h, setBloats_eq]
  · simp [query, h]

/-! ## Refresh passes -/

theorem tableBloatIter_isSome (g : Gauges) (db : Nat → String → QueryResult (tableBloat V))
    (s : TaskState V) (k : List String) (h : (s.gauge.get k).isSome = true) :
    ((tableBloatIter g db s).gauge.get k).isSome = true := by
  unfold GaugeVec.get at h ⊢
  rw [tableBloatIter_cells]
  split
  · exact GaugeVec.lookup_upsertAll_isSome k _ _ h
  · exact h

theorem tableBloatLoop_isSome (g : Gauges) (db : Nat → String → QueryResult (tableBloat V))
    (n : Nat) (s : TaskState V) (k : List String) (h : (s.gauge.get k).isSome = true) :
    ((tableBloatLoop g db n s).gauge.get k).isSome = true := by
  induction n generalizing s with
  | zero => exact h
  | succ n ih => exact ih _ (tableBloatIter_isSome g db s k h)

/-- C5: a label-value tuple that has a cell before a refresh pass of `BackendsStatus`
or of `TableBloat` has a cell after it, with the same value when the tuple does not
occur among the records of that pass; after any number of `TableBloat` passes the cell
is still there. -/
theorem cells_persist (g : Gauges) (dbB : Nat → String → QueryResult (backendStatus V))
    (dbT : Nat → String → QueryResult (tableBloat V)) (s : TaskState V) (n : Nat)
    (k : List String) (v : V) (h : s.gauge.get k = some v) :
    (((backendsStatusTask g dbB s).gauge.get k).isSome = true ∧
      (k ∉ ((dbB s.calls backendsQuery).records
              ++ (dbB (s.calls + 1) (waitingBackendsQuery g)).records).map
            (fun r => [r.State, r.User]) →
        (backendsStatusTask g dbB s).gauge.get k = some v)) ∧
    (((tableBloatIter g dbT s).gauge.get k).isSome = true ∧
      (k ∉ (dbT s.calls tableBloatQuery).records.map (fun t => [t.Name]) →
        (tableBloatIter g dbT s).gauge.get k = some v)) ∧
    ((tableBloatLoop g dbT n s).gauge.get k).isSome = true := by
  have hsome : (s.gauge.get k).isSome = true := by rw [h]; rfl
  refine ⟨⟨?_, ?_⟩, ⟨tableBloatIter_isSome g dbT s k hsome, ?_⟩,
    tableBloatLoop_isSome g dbT n s k hsome⟩
  · unfold GaugeVec.get at hsome ⊢
    rw [backendsStatusTask_cells]
    exact GaugeVec.lookup_upsertAll_isSome k _ _ hsome
  · intro hk
    unfold GaugeVec.get at h ⊢
    rw [backendsStatusTask_cells, GaugeVec.lookup_upsertAll_absent, h]
    simpa [List.map_map, Function.comp_def] using hk
  · intro hk
    unfold GaugeVec.get at h ⊢
    rw [tableBloatIter_cells]
    split
    · rw [GaugeVec.lookup_upsertAll_absent, h]
      simpa [List.map_map, Function.comp_def] using hk
    · exact h

theorem cells_persist_witness :
    (started (⟨[(["idle", "bob"], 4)]⟩ : GaugeVec Int)).gauge.get ["idle", "bob"] = some 4 ∧
    (backendsStatusTask superuser changingDb
      (started (⟨[(["idle", "bob"], 4)]⟩ : GaugeVec Int))).gauge.get ["idle", "bob"] = some 4 ∧
    ((tableBloatLoop superuser failingTwice 3
      (started (⟨[(["idle", "bob"], 4)]⟩ : GaugeVec Int))).gauge.get ["idle", "bob"]).isSome
        = true :=
  ⟨rfl,
    (cells_persist superuser changingDb failingTwice
      (started (⟨[(["idle", "bob"], 4)]⟩ : GaugeVec Int)) 3 ["idle", "bob"] 4 rfl).1.2
      (by decide),
    (cells_persist superuser changingDb failingTwice
      (started (⟨[(["idle", "bob"], 4)]⟩ : GaugeVec Int)) 3 ["idle", "bob"] 4 rfl).2.2⟩

/-- C6: with superuser, `BackendsStatus` starts its goroutine on a vector without
cells; when the records of the two queries of the pass carry pairwise distinct
(state, user) tuples, the cells after the pass are exactly those records, one cell
each, labelled (State, User) and holding Count: as many cells as records (three for
three records), and no negative value when no count is negative. -/
theorem backendsStatus_one_cell_per_record [Zero V] [LE V] (g : Gauges) (w : World)
    (db : Nat → String → QueryResult (backendStatus V))
    (hs : g.isSuperuser = true)
    (hd : (((db 0 backendsQuery).records ++ (db 1 (waitingBackendsQuery g)).records).map
      (fun r => [r.State, r.User])).Nodup) :
    (BackendsStatus g w : GaugeVec V × World).1.cells = [] ∧
    (BackendsStatus g w : GaugeVec V × World).2.tasks = w.tasks ++ [Task.backendsStatus] ∧
    (backendsStatusTask g db (started (BackendsStatus g w : GaugeVec V × World).1)).gauge.cells
      = ((db 0 backendsQuery).records ++ (db 1 (waitingBackendsQuery g)).records).map
          (fun r => ([r.State, r.User], r.Count)) ∧
    (backendsStatusTask g db
        (started (BackendsStatus g w : GaugeVec V × World).1)).gauge.cells.length
      = ((db 0 backendsQuery).records ++ (db 1 (waitingBackendsQuery g)).records).length ∧
    (∀ r ∈ (db 0 backendsQuery).records ++ (db 1 (waitingBackendsQuery g)).records,
      (backendsStatusTask g db (started (BackendsStatus g w : GaugeVec V × World).1)).gauge.get
        [r.State, r.User] = some r.Count) ∧
    (((db 0 backendsQuery).records ++ (db 1 (waitingBackendsQuery g)).records).length = 3 →
      (backendsStatusTask g db
        (started (BackendsStatus g w : GaugeVec V × World).1)).gauge.cells.length = 3) ∧
    ((∀ r ∈ (db 0 backendsQuery).records ++ (db 1 (waitingBackendsQuery g)).records,
        0 ≤ r.Count) →
      ∀ c ∈ (backendsStatusTask g db
        (started (BackendsStatus g w : GaugeVec V × World).1)).gauge.cells, 0 ≤ c.2) := by
  have hb : (BackendsStatus g w : GaugeVec V × World).1 = GaugeVec.new := by
    simp [BackendsStatus, hs]
  have hkeys : (((db 0 backendsQuery).records
      ++ (db 1 (waitingBackendsQuery g)).records).map
        (fun r => ([r.State, r.User], r.Count))).map Prod.fst
      = ((db 0 backendsQuery).records ++ (db 1 (waitingBackendsQuery g)).records).map
        (fun r => [r.State, r.User]) := by
    simp [List.map_map, Function.comp_def]
  have hcells : (backendsStatusTask g db
      (started (BackendsStatus g w : GaugeVec V × World).1)).gauge.cells
      = ((db 0 backendsQuery).records ++ (db 1 (waitingBackendsQuery g)).records).map
          (fun r => ([r.State, r.User], r.Count)) := by
    rw [backendsStatusTask_cells, hb]
    have e := GaugeVec.upsertAll_fresh
      (((db 0 backendsQuery).records ++ (db 1 (waitingBackendsQuery g)).records).map
        (fun r => ([r.State, r.User], r.Count))) ([] : List (List String × V))
      (by rw [hkeys]; simpa using hd)
    simpa [started, GaugeVec.new] using e
  refine ⟨by rw [hb]; rfl, by simp [BackendsStatus, hs], hcells, ?_, ?_, ?_, ?_⟩
  · rw [hcells, List.length_map]
  · intro r hr
    unfold GaugeVec.get
    rw [hcells]
    exact GaugeVec.lookup_of_mem_nodup _ (by rw [hkeys]; exact hd)
      ([r.State, r.User], r.Count) (List.mem_map_of_mem _ hr)
  · intro h3
    rw [hcells, List.length_map, h3]
  · intro hpos c hc
    rw [hcells] at hc
    obtain ⟨r, hr, rfl⟩ := List.mem_map.1 hc
    exact hpos r hr

theorem backendsStatus_one_cell_per_record_witness :
    superuser.isSuperuser = true ∧
    (backendsStatusTask superuser threeStates
        (started (BackendsStatus superuser freshWorld : GaugeVec Int × World).1)).gauge.cells
      = [(["active", "alice"], 2), (["idle", "bob"], 1), (["waiting", "bob"], 1)] :=
  ⟨rfl,
    (backendsStatus_one_cell_per_record superuser freshWorld threeStates rfl
      (by decide)).2.2.1⟩

/-! ## Where the refresh goroutines depart from the specification -/

/-- A failed iteration of the `TableBloat` loop leaves the cells alone and goes on to
the next query without sleeping. -/
theorem tableBloatIter_failed (g : Gauges) (db : Nat → String → QueryResult (tableBloat V))
    (s : TaskState V) (h : (db s.calls tableBloatQuery).err = true) :
    (tableBloatIter g db s).gauge = s.gauge ∧
    (tableBloatIter g db s).trace = s.trace ++ [Event.query tableBloatQuery] := by
  simp [tableBloatIter, query, h]

/-- C8: the goroutine of `BackendsStatus` on a database whose answer changes after the
first pass: it issues its two queries, sleeps once and ends; the cell keeps the value
of the first pass although the database would now answer 2. -/
theorem backendsStatus_runs_one_pass :
    (BackendsStatus superuser freshWorld : GaugeVec Int × World).2.tasks
      = [Task.backendsStatus] ∧
    (backendsStatusTask superuser changingDb (started GaugeVec.new)).trace
      = [Event.query backendsQuery, Event.query waitingBoolQuery, Event.sleep 15] ∧
    (backendsStatusTask superuser changingDb (started GaugeVec.new)).calls = 2 ∧
    (backendsStatusTask superuser changingDb (started GaugeVec.new)).gauge.cells
      = [(["active", "alice"], 1)] ∧
    (changingDb 2 backendsQuery).records
      = [{ Count := 2, User := "alice", State := "active" }] := by
  decide

/-- C9: three iterations of the `TableBloat` loop on a database where the bloat query
fails twice: the three queries follow one another with no sleep in between; the only
sleep comes after the query that succeeded. -/
theorem tableBloat_retries_without_sleep :
    (tableBloatLoop superuser failingTwice 3 (started GaugeVec.new)).trace
      = [Event.query tableBloatQuery, Event.query tableBloatQuery,
          Event.query tableBloatQuery, Event.sleep 15] ∧
    (tableBloatLoop superuser failingTwice 2 (started GaugeVec.new)).gauge.cells = [] ∧
    (tableBloatLoop superuser failingTwice 3 (started GaugeVec.new)).gauge.cells
      = [(["orders"], 40)] :=
  ⟨rfl, rfl, rfl⟩

/-- C10: the first query of a `BackendsStatus` pass returns an error together with one
decoded record: the record is written to the vector all the same, and the second query
of the pass is still run. -/
theorem backendsStatus_failed_query_sets_cells :
    (partialDb 0 backendsQuery).err = true ∧
    (started (GaugeVec.new : GaugeVec Int)).gauge.cells = [] ∧
    (backendsStatusQuery partialDb (started GaugeVec.new) backendsQuery).gauge.cells
      = [(["active", "alice"], 3)] ∧
    (backendsStatusTask superuser partialDb (started GaugeVec.new)).trace
      = [Event.query backendsQuery, Event.query waitingBoolQuery, Event.sleep 15] := by
  decide

end PgExporter
